import Mathlib

/-!
Verification of the FX-impact analytics core (`main.py`) against its
specification.  The numeric pipeline of the program is embedded shallowly
over `ℚ` (exact arithmetic): pandas `Series` become `List ℚ` (the aligned,
date-ordered closing prices), `iloc[0]` / `iloc[-1]` become `List.head?` /
`List.getLast?`, and the fallible access on an empty series is made explicit
with `Option`.
-/

namespace FxImpact

/-- The record returned by `decompose_returns` (`main.py`, lines 136–144):
all returns are expressed in percent, `fx_effect` in percentage points, and
`check` is the boolean self-check `abs(ret_eur - ret_eur_check) < 0.0001`
computed on the raw (not percent-scaled) returns. -/
structure DecompositionResult where
  ret_usd : ℚ
  ret_eur : ℚ
  fx_pct_change : ℚ
  fx_effect : ℚ
  fx_start : ℚ
  fx_end : ℚ
  check : Bool
deriving Repr, DecidableEq

/-- The arithmetic core of `decompose_returns` (`main.py`, lines 111–144)
once the four scalars `prices_usd.iloc[0]`, `prices_usd.iloc[-1]`,
`eurusd.iloc[0]`, `eurusd.iloc[-1]` have been extracted: line-by-line
translation of the body. -/
def decomposePoints (p_usd_start p_usd_end fx_start fx_end : ℚ) :
    DecompositionResult :=
  let ret_usd := p_usd_end / p_usd_start - 1
  let fx_pct_change := fx_end / fx_start - 1
  let p_eur_start := p_usd_start / fx_start
  let p_eur_end := p_usd_end / fx_end
  let ret_eur := p_eur_end / p_eur_start - 1
  let fx_effect := ret_eur - ret_usd
  let ret_eur_check := (1 + ret_usd) * (fx_start / fx_end) - 1
  { ret_usd := ret_usd * 100
    ret_eur := ret_eur * 100
    fx_pct_change := fx_pct_change * 100
    fx_effect := fx_effect * 100
    fx_start := fx_start
    fx_end := fx_end
    check := decide (|ret_eur - ret_eur_check| < 1 / 10000) }

/-- Translation of `decompose_returns` (`main.py`, lines 91–144).  `prices_usd.iloc[0]`
etc. raise on an empty series; here that is `none`.  On non-empty input the
function unconditionally returns the computed record — the source has no
other exit path. -/
def decompose_returns (prices_usd eurusd : List ℚ) :
    Option DecompositionResult :=
  match prices_usd.head?, prices_usd.getLast?, eurusd.head?, eurusd.getLast? with
  | some a, some b, some c, some d => some (decomposePoints a b c d)
  | _, _, _, _ => none

/-- Inversion principle: a successful run of `decompose_returns` exposes the
four scalars the source reads (`iloc[0]` / `iloc[-1]` of each series). -/
lemma decompose_returns_some_inv {p fx : List ℚ} {d : DecompositionResult}
    (h : decompose_returns p fx = some d) :
    ∃ a b c e, p.head? = some a ∧ p.getLast? = some b ∧
      fx.head? = some c ∧ fx.getLast? = some e ∧ d = decomposePoints a b c e := by
  unfold decompose_returns at h
  split at h
  · next a b c e ha hb hc he =>
      exact ⟨a, b, c, e, ha, hb, hc, he, (Option.some.injEq _ _ ▸ h).symm⟩
  · exact absurd h (by simp)

/-- C1: for every decomposition computed by `decompose_returns` from non-empty
series with strictly positive prices and non-zero FX rates, the returned
percent values satisfy the exact multiplicative identity
`1 + ret_eur/100 = (1 + ret_usd/100) * (fx_start/fx_end)` in exact
arithmetic (which in particular places it within any absolute tolerance). -/
theorem decompose_returns_multiplicative_identity
    (prices_usd eurusd : List ℚ) (d : DecompositionResult)
    (hd : decompose_returns prices_usd eurusd = some d)
    (hp : ∀ x ∈ prices_usd, 0 < x) (hf : ∀ x ∈ eurusd, x ≠ 0) :
    1 + d.ret_eur / 100 = (1 + d.ret_usd / 100) * (d.fx_start / d.fx_end) := by
  obtain ⟨a, b, c, e, ha, hb, hc, he, rfl⟩ := decompose_returns_some_inv hd
  have ha0 : a ≠ 0 := ne_of_gt (hp a (List.mem_of_mem_head? ha))
  have hc0 : c ≠ 0 := hf c (List.mem_of_mem_head? hc)
  have he0 : e ≠ 0 := hf e (List.mem_of_mem_getLast? he)
  simp only [decomposePoints]
  field_simp
  ring

/-- Closed witness for C1 on the series 100→120 USD with EUR/USD 1.10→1.00. -/
theorem decompose_returns_multiplicative_identity_witness :
    ∃ d, decompose_returns [100, 120] [11/10, 1] = some d ∧
      1 + d.ret_eur / 100 = (1 + d.ret_usd / 100) * (d.fx_start / d.fx_end) := by
  have h : decompose_returns [100, 120] [11/10, 1] =
      some ⟨20, 32, -100/11, 12, 11/10, 1, true⟩ := by
    norm_num [decompose_returns, decomposePoints, List.getLast?]
  exact ⟨_, h, decompose_returns_multiplicative_identity _ _ _ h
    (by norm_num) (by norm_num)⟩

/-- C9: in exact arithmetic, whenever the start price, the start FX rate and
the end FX rate are non-zero, the internal self-check value
`(1 + ret_usd) * (fx_start/fx_end) - 1` coincides with `ret_eur`, so the
`check` field of every result returned by `decompose_returns` is `true` and
an internal-inconsistency outcome is unreachable. -/
theorem decompose_returns_check_always_true
    (prices_usd eurusd : List ℚ) (d : DecompositionResult)
    (hd : decompose_returns prices_usd eurusd = some d)
    (hp : ∀ x ∈ prices_usd.head?, x ≠ 0)
    (hfs : ∀ x ∈ eurusd.head?, x ≠ 0)
    (hfe : ∀ x ∈ eurusd.getLast?, x ≠ 0) :
    d.check = true := by
  obtain ⟨a, b, c, e, ha, hb, hc, he, rfl⟩ := decompose_returns_some_inv hd
  have ha0 : a ≠ 0 := hp a ha
  have hc0 : c ≠ 0 := hfs c hc
  have he0 : e ≠ 0 := hfe e he
  simp only [decomposePoints, decide_eq_true_eq]
  refine lt_of_le_of_lt (le_of_eq ?_) (show (0:ℚ) < 1/10000 by norm_num)
  rw [abs_eq_zero, sub_eq_zero]
  field_simp
  ring

/-- Closed witness for C9 at prices 100→120, EUR/USD 1.10→1.00. -/
theorem decompose_returns_check_always_true_witness :
    ∃ d, decompose_returns [100, 120] [11/10, 1] = some d ∧ d.check = true := by
  have h : decompose_returns [100, 120] [11/10, 1] =
      some ⟨20, 32, -100/11, 12, 11/10, 1, true⟩ := by
    norm_num [decompose_returns, decomposePoints, List.getLast?]
  exact ⟨_, h, decompose_returns_check_always_true _ _ _ h
    (by norm_num) (by norm_num) (by norm_num [List.getLast?])⟩

/-- C10: the `ret_usd` field returned by `decompose_returns` depends only on
the asset price series: two runs on the same prices with arbitrary FX series
return the same `ret_usd`. -/
theorem decompose_returns_ret_usd_independent_of_fx
    (prices_usd fx1 fx2 : List ℚ) (d1 d2 : DecompositionResult)
    (h1 : decompose_returns prices_usd fx1 = some d1)
    (h2 : decompose_returns prices_usd fx2 = some d2) :
    d1.ret_usd = d2.ret_usd := by
  obtain ⟨a, b, c, e, ha, hb, _, _, rfl⟩ := decompose_returns_some_inv h1
  obtain ⟨a', b', c', e', ha', hb', _, _, rfl⟩ := decompose_returns_some_inv h2
  rw [ha] at ha'
  rw [hb] at hb'
  cases ha'
  cases hb'
  rfl

/-- Closed witness for C10: same prices 100→120 against two different FX
series, 1.10→1.00 and 1.00→1.25, give the same `ret_usd`. -/
theorem decompose_returns_ret_usd_independent_of_fx_witness :
    ∃ d1 d2, decompose_returns [100, 120] [11/10, 1] = some d1 ∧
      decompose_returns [100, 120] [1, 5/4] = some d2 ∧ d1.ret_usd = d2.ret_usd := by
  have h1 : decompose_returns [100, 120] [11/10, 1] =
      some ⟨20, 32, -100/11, 12, 11/10, 1, true⟩ := by
    norm_num [decompose_returns, decomposePoints, List.getLast?]
  have h2 : decompose_returns [100, 120] [1, 5/4] =
      some ⟨20, -4, 25, -24, 1, 5/4, true⟩ := by
    norm_num [decompose_returns, decomposePoints, List.getLast?]
  exact ⟨_, _, h1, h2, decompose_returns_ret_usd_independent_of_fx _ _ _ _ _ h1 h2⟩

/-- C6: on the concrete input where the asset goes 100→120 USD and EUR/USD
goes 1.10→1.00, `decompose_returns` returns `ret_usd = 20`, `ret_eur = 32`
and `fx_effect = 12` percentage points, and the multiplicative check
`(1.20) * (1.10/1.00) - 1 = 0.32` holds. -/
theorem decompose_returns_concrete_scenario :
    (∃ d, decompose_returns [100, 120] [11/10, 1] = some d ∧
      d.ret_usd = 20 ∧ d.ret_eur = 32 ∧ d.fx_effect = 12 ∧
      d.fx_start = 11/10 ∧ d.fx_end = 1 ∧ d.check = true) ∧
    (120/100 : ℚ) * ((11/10) / 1) - 1 = 32/100 := by
  constructor
  · exact ⟨⟨20, 32, -100/11, 12, 11/10, 1, true⟩,
      by norm_num [decompose_returns, decomposePoints, List.getLast?],
      rfl, rfl, rfl, rfl, rfl, rfl⟩
  · norm_num

/-- Closed form of the `fx_effect` field (percentage points):
`100 * b * (c - e) / (a * e)` for start/end prices `a, b` and
start/end FX rates `c, e`. -/
lemma decomposePoints_fx_effect (a b c e : ℚ) (ha : a ≠ 0)
    (he : e ≠ 0) :
    (decomposePoints a b c e).fx_effect = 100 * b * (c - e) / (a * e) := by
  simp only [decomposePoints]
  field_simp
  ring

/-- C5: rerunning `decompose_returns` with the FX series replaced elementwise
by its reciprocal leaves `ret_usd` unchanged and flips the sign of
`fx_effect` (positive becomes negative, zero stays zero), for positive
prices and positive FX rates.  The magnitude is generally different, but the
sign is exactly mirrored. -/
theorem decompose_returns_fx_inversion_flips_sign
    (prices_usd eurusd : List ℚ) (d dinv : DecompositionResult)
    (hd : decompose_returns prices_usd eurusd = some d)
    (hdinv : decompose_returns prices_usd (eurusd.map (fun x => 1 / x)) = some dinv)
    (hp : ∀ x ∈ prices_usd, 0 < x) (hf : ∀ x ∈ eurusd, 0 < x) :
    dinv.ret_usd = d.ret_usd ∧
    (0 < d.fx_effect ↔ dinv.fx_effect < 0) ∧
    (d.fx_effect = 0 ↔ dinv.fx_effect = 0) ∧
    (d.fx_effect < 0 ↔ 0 < dinv.fx_effect) := by
  obtain ⟨a, b, c, e, ha, hb, hc, he, rfl⟩ := decompose_returns_some_inv hd
  obtain ⟨a2, b2, c2, e2, ha2, hb2, hc2, he2, rfl⟩ := decompose_returns_some_inv hdinv
  rw [ha] at ha2
  rw [hb] at hb2
  rw [List.head?_map, hc, Option.map_some'] at hc2
  rw [List.getLast?_map, he, Option.map_some'] at he2
  cases ha2; cases hb2; cases hc2; cases he2
  have ha0 : 0 < a := hp a (List.mem_of_mem_head? ha)
  have hb0 : 0 < b := hp b (List.mem_of_mem_getLast? hb)
  have hc0 : 0 < c := hf c (List.mem_of_mem_head? hc)
  have he0 : 0 < e := hf e (List.mem_of_mem_getLast? he)
  have hfx1 : (decomposePoints a b c e).fx_effect = 100 * b * (c - e) / (a * e) :=
    decomposePoints_fx_effect a b c e ha0.ne' he0.ne'
  have hfx2 : (decomposePoints a b (1/c) (1/e)).fx_effect =
      100 * b * (e - c) / (a * c) := by
    rw [decomposePoints_fx_effect a b (1/c) (1/e) ha0.ne' (by positivity)]
    field_simp
    ring
  have h100b : (100 : ℚ) * b ≠ 0 := by positivity
  have hae : a * e ≠ 0 := by positivity
  have hac : a * c ≠ 0 := by positivity
  refine ⟨rfl, ?_, ?_, ?_⟩
  · rw [hfx1, hfx2, lt_div_iff₀ (by positivity), div_lt_iff₀ (by positivity),
      zero_mul, zero_mul]
    constructor <;> intro h <;> nlinarith
  · rw [hfx1, hfx2, div_eq_zero_iff, div_eq_zero_iff]
    simp only [hae, hac, or_false, mul_eq_zero, h100b, false_or]
    constructor <;> intro h <;> linarith
  · rw [hfx1, hfx2, div_lt_iff₀ (by positivity), lt_div_iff₀ (by positivity),
      zero_mul, zero_mul]
    constructor <;> intro h <;> nlinarith

/-- Closed witness for C5: prices 100→120, EUR/USD 1.10→1.00 versus the
reciprocal FX series; `ret_usd` agrees and `fx_effect` changes sign. -/
theorem decompose_returns_fx_inversion_flips_sign_witness :
    ∃ d dinv,
      decompose_returns [100, 120] [11/10, 1] = some d ∧
      decompose_returns [100, 120] ([11/10, 1].map (fun x => 1 / x)) = some dinv ∧
      dinv.ret_usd = d.ret_usd ∧
      (0 < d.fx_effect ↔ dinv.fx_effect < 0) ∧
      (d.fx_effect = 0 ↔ dinv.fx_effect = 0) ∧
      (d.fx_effect < 0 ↔ 0 < dinv.fx_effect) := by
  have h1 : decompose_returns [100, 120] [11/10, 1] =
      some ⟨20, 32, -100/11, 12, 11/10, 1, true⟩ := by
    norm_num [decompose_returns, decomposePoints, List.getLast?]
  have h2 : decompose_returns [100, 120] ([11/10, 1].map (fun x => 1 / x)) =
      some ⟨20, 100/11, 10, -120/11, 10/11, 1, true⟩ := by
    norm_num [decompose_returns, decomposePoints, List.getLast?]
  exact ⟨_, _, h1, h2, decompose_returns_fx_inversion_flips_sign _ _ _ _ h1 h2
    (by norm_num) (by norm_num)⟩

/-- C4 counterexample: on a window with a single price point,
`decompose_returns` does not return a "not computable" outcome — it performs
the computation and returns a fabricated zero return. -/
theorem decompose_returns_singleton_counterexample :
    decompose_returns [100] [11/10] ≠ none ∧
    decompose_returns [100] [11/10] =
      some { ret_usd := 0, ret_eur := 0, fx_pct_change := 0, fx_effect := 0,
             fx_start := 11/10, fx_end := 11/10, check := true } := by
  have h : decompose_returns [100] [11/10] =
      some { ret_usd := 0, ret_eur := 0, fx_pct_change := 0, fx_effect := 0,
             fx_start := 11/10, fx_end := 11/10, check := true } := by
    norm_num [decompose_returns, decomposePoints, List.getLast?]
  exact ⟨by rw [h]; simp, h⟩

/-- C4 as amended: `decompose_returns` performs no minimum-window check; on a
one-point window with non-zero price and FX rate it returns a zero-return
result (all return fields `0`), not a "not computable" outcome.  The
fewer-than-2-observations guard lives only in `calculate_annual_breakdown`. -/
theorem decompose_returns_singleton_zero (p f : ℚ) (hp : p ≠ 0) (hf : f ≠ 0) :
    decompose_returns [p] [f] =
      some { ret_usd := 0, ret_eur := 0, fx_pct_change := 0, fx_effect := 0,
             fx_start := f, fx_end := f, check := true } := by
  have hpf : p / f ≠ 0 := div_ne_zero hp hf
  simp [decompose_returns, decomposePoints, List.getLast?, div_self, hp, hf, hpf]

/-- Closed witness for the amended C4 at price 7 and FX rate 2. -/
theorem decompose_returns_singleton_zero_witness :
    decompose_returns [7] [2] =
      some { ret_usd := 0, ret_eur := 0, fx_pct_change := 0, fx_effect := 0,
             fx_start := 2, fx_end := 2, check := true } :=
  decompose_returns_singleton_zero 7 2 (by norm_num) (by norm_num)

/-- Elementwise sum of aligned series, as produced by Python `sum(...)` over
pandas Series of a common index (`main.py`, lines 720–721). -/
def sumSeries : List (List ℚ) → List ℚ
  | [] => []
  | [l] => l
  | l :: ls => List.zipWith (· + ·) l (sumSeries ls)

/-- Translation of `port_usd = sum(prices[a] * weights[a] for a in selected_assets if
weights[a] > 0)` (`main.py`, line 720): each entry is a weight paired with
that asset's aligned price series. -/
def port_usd (entries : List (ℚ × List ℚ)) : List ℚ :=
  sumSeries ((entries.filter (fun x => 0 < x.1)).map
    (fun x => x.2.map (fun p => x.1 * p)))

/-- Base-100 normalisation (`main.py`, line 724:
`port_usd_norm = port_usd / port_usd.iloc[0] * 100`). -/
def normSeries (l : List ℚ) : List ℚ := l.map (fun x => x / l.headD 0 * 100)

/-- Total return in percent read off a normalised series (`main.py`,
line 728: `ret_usd = port_usd_norm.iloc[-1] - 100`). -/
def totalReturn (l : List ℚ) : Option ℚ :=
  (normSeries l).getLast?.map (fun x => x - 100)

/-- The portfolio simulator's headline return (`main.py`, lines 720–728). -/
def port_total_return (entries : List (ℚ × List ℚ)) : Option ℚ :=
  totalReturn (port_usd entries)

lemma totalReturn_eq (l : List ℚ) (hl : l ≠ []) :
    totalReturn l = some (l.getLast hl / l.head hl * 100 - 100) := by
  rw [totalReturn, normSeries, List.getLast?_map, List.getLast?_eq_getLast l hl,
    List.headD_eq_head?, List.head?_eq_head hl]
  rfl

lemma getLast?_zipWith_of_length_eq {f : ℚ → ℚ → ℚ} {l1 l2 : List ℚ}
    (h : l2.length = l1.length) :
    (List.zipWith f l1 l2).getLast? =
      match l1.getLast?, l2.getLast? with
      | some a, some b => some (f a b)
      | _, _ => none := by
  rw [List.getLast?_eq_getElem? (List.zipWith f l1 l2), List.getElem?_zipWith,
    List.length_zipWith, h, Nat.min_self, List.getLast?_eq_getElem? l1,
    List.getLast?_eq_getElem? l2, h]
  cases l1[l1.length - 1]? <;> cases l2[l1.length - 1]? <;> rfl

/-- C2 as amended: with weights `{A: 1.0}` the simulated portfolio price
series is exactly asset A's price series (hence the same return at every
horizon); with weights `{A: 0.5, B: 0.5}` the portfolio total return equals
the elementwise average of the two assets' total returns **when both assets
start at the same (positive) price** — the simulator averages price levels,
so in general it weights returns by start price. -/
theorem portfolio_weights_spec (pA pB : List ℚ) (hA : pA ≠ []) (hB : pB ≠ [])
    (hlen : pB.length = pA.length) (hhead : pB.head hB = pA.head hA)
    (hpos : 0 < pA.head hA) :
    port_usd [(1, pA)] = pA ∧
    port_total_return [(1, pA)] = totalReturn pA ∧
    port_total_return [(1/2, pA), (1/2, pB)] =
      some (((pA.getLast hA / pA.head hA * 100 - 100) +
             (pB.getLast hB / pB.head hB * 100 - 100)) / 2) := by
  have hone : port_usd [(1, pA)] = pA := by
    simp [port_usd, sumSeries]
  refine ⟨hone, by rw [port_total_return, hone], ?_⟩
  have hfilter : ([(1/2, pA), (1/2, pB)].filter (fun x : ℚ × List ℚ => 0 < x.1)) =
      [(1/2, pA), (1/2, pB)] := by norm_num
  have hport : port_usd [(1/2, pA), (1/2, pB)] =
      List.zipWith (· + ·) (pA.map (fun p => 1/2 * p)) (pB.map (fun p => 1/2 * p)) := by
    rw [port_usd, hfilter]
    rfl
  have hmaplen : (pB.map (fun p => 1/2 * p)).length = (pA.map (fun p => 1/2 * p)).length := by
    simp [hlen]
  have hlast : (port_usd [(1/2, pA), (1/2, pB)]).getLast? =
      some (1/2 * pA.getLast hA + 1/2 * pB.getLast hB) := by
    rw [hport, getLast?_zipWith_of_length_eq hmaplen, List.getLast?_map,
      List.getLast?_map, List.getLast?_eq_getLast pA hA, List.getLast?_eq_getLast pB hB]
    rfl
  have hhd : (port_usd [(1/2, pA), (1/2, pB)]).headD 0 =
      1/2 * pA.head hA + 1/2 * pB.head hB := by
    rw [List.headD_eq_head?, hport, List.head?_zipWith, List.head?_map,
      List.head?_map, List.head?_eq_head hA, List.head?_eq_head hB]
    rfl
  rw [port_total_return, totalReturn, normSeries, List.getLast?_map, hlast, hhd,
    Option.map_some']
  have ha0 : pA.head hA ≠ 0 := hpos.ne'
  rw [hhead]
  field_simp
  ring

/-- Closed witness for the amended C2: assets `[100, 110]` (+10%) and
`[100, 96]` (−4%) with equal start prices, 50/50 weights → +3%. -/
theorem portfolio_weights_spec_witness :
    port_usd [(1, ([100, 110] : List ℚ))] = [100, 110] ∧
    port_total_return [(1/2, ([100, 110] : List ℚ)), (1/2, [100, 96])] = some 3 := by
  have h := portfolio_weights_spec [100, 110] [100, 96] (by simp) (by simp)
    (by simp) (by simp [List.head]) (by norm_num [List.head])
  refine ⟨h.1, ?_⟩
  rw [h.2.2]
  norm_num [List.getLast, List.head]

/-- C2 counterexample: with 50/50 weights, asset A returning +10% and asset B
returning −4%, the simulated portfolio return is NOT +3% when the start
prices differ — for `A = [100, 110]` and `B = [200, 192]` it is +2/3%. -/
theorem portfolio_weights_counterexample :
    totalReturn [100, 110] = some 10 ∧
    totalReturn [200, 192] = some (-4) ∧
    port_total_return [(1/2, ([100, 110] : List ℚ)), (1/2, [200, 192])] = some (2/3) ∧
    (2/3 : ℚ) ≠ 3 := by
  refine ⟨?_, ?_, ?_, by norm_num⟩
  · norm_num [totalReturn, normSeries, List.getLast?]
  · norm_num [totalReturn, normSeries, List.getLast?]
  · norm_num [port_total_return, port_usd, sumSeries, totalReturn, normSeries,
      List.getLast?]

/-- One aligned observation: calendar year of the date, asset close in USD,
EUR/USD close.  (`prices_usd` and `eurusd` share one date index in the
source, so a single row carries both values.) -/
structure Obs where
  year : Int
  p_usd : ℚ
  fx : ℚ
deriving Repr, DecidableEq

/-- A row of the annual-breakdown table (`main.py`, lines 157–163). -/
structure AnnualRow where
  year : Int
  ret_usd : ℚ
  ret_eur : ℚ
  fx_pct_change : ℚ
  fx_effect : ℚ
deriving Repr, DecidableEq

/-- pandas `Index.unique()`: distinct values in order of first appearance. -/
def uniqueFirst : List Int → List Int
  | [] => []
  | y :: ys => y :: uniqueFirst (ys.filter (fun z => z ≠ y))
termination_by l => l.length
decreasing_by simp_wf; exact Nat.lt_succ_of_le (List.length_filter_le _ _)

lemma mem_uniqueFirst (l : List Int) (a : Int) : a ∈ uniqueFirst l ↔ a ∈ l := by
  induction l using uniqueFirst.induct with
  | case1 => simp [uniqueFirst]
  | case2 y ys ih =>
      rw [uniqueFirst, List.mem_cons, ih, List.mem_filter]
      by_cases h : a = y <;> simp [h]

lemma nodup_uniqueFirst (l : List Int) : (uniqueFirst l).Nodup := by
  induction l using uniqueFirst.induct with
  | case1 => simp [uniqueFirst]
  | case2 y ys ih =>
      rw [uniqueFirst]
      refine List.nodup_cons.mpr ⟨?_, ih⟩
      intro hmem
      have h2 := (mem_uniqueFirst _ y).mp hmem
      simp [List.mem_filter] at h2

/-- The body of the `for year in years` loop of `calculate_annual_breakdown`
(`main.py`, lines 151–163): mask the year, skip it when it has fewer than 2
observations, otherwise decompose the masked sub-series into a row. -/
def annualRowCode (obs : List Obs) (y : Int) : Option AnnualRow :=
  let sub := obs.filter (fun o => o.year == y)
  if sub.length < 2 then none
  else
    (decompose_returns (sub.map Obs.p_usd) (sub.map Obs.fx)).map (fun d =>
      { year := y, ret_usd := d.ret_usd, ret_eur := d.ret_eur,
        fx_pct_change := d.fx_pct_change, fx_effect := d.fx_effect })

/-- Translation of `calculate_annual_breakdown` (`main.py`, lines 146–165). -/
def calculate_annual_breakdown (obs : List Obs) : List AnnualRow :=
  (uniqueFirst (obs.map Obs.year)).filterMap (annualRowCode obs)

/-- Modelled from the spec wording of the annual breakdown (spec §4.2): one
decomposition per distinct calendar year, window bounds the first and last
observation within that year, years with fewer than 2 observations skipped.
Used only as the comparison point of the C7 refinement theorem. -/
def annualRowSpec (obs : List Obs) (y : Int) : Option AnnualRow :=
  match (obs.filter (fun o => o.year == y)).head?,
        (obs.filter (fun o => o.year == y)).getLast? with
  | some o1, some o2 =>
      if 2 ≤ (obs.filter (fun o => o.year == y)).length then
        some { year := y
               ret_usd := (decomposePoints o1.p_usd o2.p_usd o1.fx o2.fx).ret_usd
               ret_eur := (decomposePoints o1.p_usd o2.p_usd o1.fx o2.fx).ret_eur
               fx_pct_change := (decomposePoints o1.p_usd o2.p_usd o1.fx o2.fx).fx_pct_change
               fx_effect := (decomposePoints o1.p_usd o2.p_usd o1.fx o2.fx).fx_effect }
      else none
  | _, _ => none

/-- The spec-side annual table: decomposition of the endpoints of each
distinct year with at least 2 observations. -/
def annualBreakdownFromSpec (obs : List Obs) : List AnnualRow :=
  (uniqueFirst (obs.map Obs.year)).filterMap (annualRowSpec obs)

lemma annualRowCode_eq_spec (obs : List Obs) (y : Int) :
    annualRowCode obs y = annualRowSpec obs y := by
  cases hsub : obs.filter (fun o => o.year == y) with
  | nil => simp [annualRowCode, annualRowSpec, hsub]
  | cons o os =>
      have hne : o :: os ≠ ([] : List Obs) := by simp
      rw [annualRowCode, annualRowSpec, hsub]
      simp only [List.head?_cons, List.getLast?_eq_getLast _ hne]
      have hdec : decompose_returns ((o :: os).map Obs.p_usd) ((o :: os).map Obs.fx) =
          some (decomposePoints o.p_usd ((o :: os).getLast hne).p_usd
            o.fx ((o :: os).getLast hne).fx) := by
        rw [decompose_returns, List.head?_map, List.getLast?_map, List.head?_map,
          List.getLast?_map, List.head?_cons, List.getLast?_eq_getLast _ hne]
        rfl
      rw [hdec]
      rcases Nat.lt_or_ge (o :: os).length 2 with hlt | hge
      · rw [if_pos hlt, if_neg (by omega)]
      · rw [if_neg (by omega), if_pos hge]
        rfl

/-- C7: the annual breakdown equals one endpoint decomposition per distinct
calendar year (window bounds: first and last observation within the year),
each listed year appears exactly once, and a year appears iff it is present
in the index with at least 2 observations (years with fewer are skipped and
produce no row). -/
theorem calculate_annual_breakdown_spec (obs : List Obs) :
    calculate_annual_breakdown obs = annualBreakdownFromSpec obs ∧
    ((calculate_annual_breakdown obs).map AnnualRow.year).Nodup ∧
    ∀ y : Int, y ∈ (calculate_annual_breakdown obs).map AnnualRow.year ↔
      (y ∈ obs.map Obs.year ∧
        2 ≤ (obs.filter (fun o => o.year == y)).length) := by
  have hyear : ∀ y r, annualRowCode obs y = some r → r.year = y := by
    intro y r h
    rw [annualRowCode] at h
    by_cases hlt : (obs.filter (fun o => o.year == y)).length < 2
    · simp [hlt] at h
    · rw [if_neg hlt, Option.map_eq_some'] at h
      obtain ⟨d, _, rfl⟩ := h
      rfl
  refine ⟨List.filterMap_congr (fun y _ => annualRowCode_eq_spec obs y), ?_, ?_⟩
  · rw [calculate_annual_breakdown, List.map_filterMap]
    refine List.Nodup.filterMap ?_ (nodup_uniqueFirst _)
    intro a a' b hb hb'
    rw [Option.mem_def, Option.map_eq_some'] at hb hb'
    obtain ⟨r, hr, hrb⟩ := hb
    obtain ⟨r', hr', hrb'⟩ := hb'
    have h1 := hyear a r hr
    have h2 := hyear a' r' hr'
    rw [← h1, hrb, ← hrb', h2]
  · intro y
    rw [calculate_annual_breakdown]
    constructor
    · intro hmem
      rw [List.mem_map] at hmem
      obtain ⟨r, hr, rfl⟩ := hmem
      rw [List.mem_filterMap] at hr
      obtain ⟨a, ha, hra⟩ := hr
      have hay := hyear a r hra
      rw [hay]
      rw [annualRowCode] at hra
      by_cases hlt : (obs.filter (fun o => o.year == a)).length < 2
      · simp [hlt] at hra
      · exact ⟨(mem_uniqueFirst _ _).mp ha, by omega⟩
    · rintro ⟨hy, hlen⟩
      rw [List.mem_map]
      have hsubne : obs.filter (fun o => o.year == y) ≠ [] := by
        intro hnil
        rw [hnil] at hlen
        simp at hlen
      have hdec : ∃ d, decompose_returns
          ((obs.filter (fun o => o.year == y)).map Obs.p_usd)
          ((obs.filter (fun o => o.year == y)).map Obs.fx) = some d := by
        rw [decompose_returns, List.head?_map, List.getLast?_map, List.head?_map,
          List.getLast?_map, List.head?_eq_head hsubne,
          List.getLast?_eq_getLast _ hsubne]
        exact ⟨_, rfl⟩
      obtain ⟨d, hd⟩ := hdec
      refine ⟨{ year := y, ret_usd := d.ret_usd, ret_eur := d.ret_eur,
                fx_pct_change := d.fx_pct_change, fx_effect := d.fx_effect }, ?_, rfl⟩
      rw [List.mem_filterMap]
      refine ⟨y, (mem_uniqueFirst _ _).mpr hy, ?_⟩
      rw [annualRowCode, if_neg (by omega), hd]
      rfl

/-- Closed witness for C7: three observations across 2021 (two points) and
2022 (one point, skipped): one row, for 2021, from that year's endpoints. -/
theorem calculate_annual_breakdown_spec_witness :
    calculate_annual_breakdown
        [⟨2021, 100, 11/10⟩, ⟨2021, 120, 1⟩, ⟨2022, 50, 1⟩] =
      annualBreakdownFromSpec
        [⟨2021, 100, 11/10⟩, ⟨2021, 120, 1⟩, ⟨2022, 50, 1⟩] ∧
    ((2021 : Int) ∈ (calculate_annual_breakdown
        [⟨2021, 100, 11/10⟩, ⟨2021, 120, 1⟩, ⟨2022, 50, 1⟩]).map AnnualRow.year ∧
      ¬ (2022 : Int) ∈ (calculate_annual_breakdown
        [⟨2021, 100, 11/10⟩, ⟨2021, 120, 1⟩, ⟨2022, 50, 1⟩]).map AnnualRow.year) := by
  have h := calculate_annual_breakdown_spec
    [⟨2021, 100, 11/10⟩, ⟨2021, 120, 1⟩, ⟨2022, 50, 1⟩]
  refine ⟨h.1, (h.2.2 2021).mpr ⟨by norm_num, by decide⟩, ?_⟩
  intro hmem
  exact absurd ((h.2.2 2022).mp hmem).2 (by decide)

/-- pandas `Series.pct_change(periods=w)` (`main.py`, lines 176–177): entry
`t` is `p[t]/p[t-w] - 1` for `t ≥ w` and NaN (here `none`) for the leading
`w` positions. -/
def pct_change (w : Nat) (l : List ℚ) : List (Option ℚ) :=
  (List.range l.length).map (fun t =>
    if w ≤ t then some (l.getD t 0 / l.getD (t - w) 0 - 1) else none)

/-- Translation of `calculate_rolling_fx_impact` (`main.py`, lines 173–178):
`prices_eur = prices_usd / eurusd`, rolling returns via `pct_change(window)`,
then `((ret_eur - ret_usd) * 100).dropna()`.  NaN propagates through the
aligned subtraction and scaling; `dropna` is `filterMap id`. -/
def calculate_rolling_fx_impact (prices_usd eurusd : List ℚ) (w : Nat) : List ℚ :=
  (List.zipWith
      (fun a b =>
        match a, b with
        | some x, some y => some ((x - y) * 100)
        | _, _ => none)
      (pct_change w (List.zipWith (fun p f => p / f) prices_usd eurusd))
      (pct_change w prices_usd)).filterMap id

lemma getD_zipWith_div (prices_usd eurusd : List ℚ) (t : Nat)
    (ht : t < prices_usd.length) (ht2 : t < eurusd.length) :
    (List.zipWith (fun p f => p / f) prices_usd eurusd).getD t 0 =
      prices_usd.getD t 0 / eurusd.getD t 0 := by
  rw [List.getD_eq_getElem?_getD, List.getElem?_zipWith,
    List.getElem?_eq_getElem ht, List.getElem?_eq_getElem ht2,
    List.getD_eq_getElem?_getD, List.getD_eq_getElem?_getD,
    List.getElem?_eq_getElem ht, List.getElem?_eq_getElem ht2]
  rfl

lemma rolling_fx_impact_eq_map (prices_usd eurusd : List ℚ) (w : Nat)
    (hlen : eurusd.length = prices_usd.length) :
    calculate_rolling_fx_impact prices_usd eurusd w =
      (List.range (prices_usd.length - w)).map (fun i =>
        (((List.zipWith (fun p f => p / f) prices_usd eurusd).getD (w + i) 0 /
            (List.zipWith (fun p f => p / f) prices_usd eurusd).getD i 0 - 1) -
         (prices_usd.getD (w + i) 0 / prices_usd.getD i 0 - 1)) * 100) := by
  have hpe : (List.zipWith (fun p f => p / f) prices_usd eurusd).length =
      prices_usd.length := by
    rw [List.length_zipWith, hlen]
    exact min_self _
  rw [calculate_rolling_fx_impact, pct_change, pct_change, hpe,
    List.zipWith_map, List.zipWith_same, List.filterMap_map]
  have hfun : ∀ t ∈ List.range prices_usd.length,
      (id ∘ fun t =>
        match
          (if w ≤ t then
            some ((List.zipWith (fun p f => p / f) prices_usd eurusd).getD t 0 /
              (List.zipWith (fun p f => p / f) prices_usd eurusd).getD (t - w) 0 - 1)
           else none),
          (if w ≤ t then
            some (prices_usd.getD t 0 / prices_usd.getD (t - w) 0 - 1)
           else none) with
        | some x, some y => some ((x - y) * 100)
        | _, _ => none) t =
      (fun t =>
        if w ≤ t then
          some ((((List.zipWith (fun p f => p / f) prices_usd eurusd).getD t 0 /
              (List.zipWith (fun p f => p / f) prices_usd eurusd).getD (t - w) 0 - 1) -
            (prices_usd.getD t 0 / prices_usd.getD (t - w) 0 - 1)) * 100)
        else none) t := by
    intro t _
    by_cases h : w ≤ t <;> simp [h]
  rw [List.filterMap_congr hfun]
  rcases le_or_lt w prices_usd.length with hw | hw
  · rw [show prices_usd.length = w + (prices_usd.length - w) by omega,
      List.range_add, List.filterMap_append]
    have h1 : (List.range w).filterMap (fun t =>
        if w ≤ t then
          some ((((List.zipWith (fun p f => p / f) prices_usd eurusd).getD t 0 /
              (List.zipWith (fun p f => p / f) prices_usd eurusd).getD (t - w) 0 - 1) -
            (prices_usd.getD t 0 / prices_usd.getD (t - w) 0 - 1)) * 100)
        else none) = [] := by
      rw [List.filterMap_eq_nil]
      intro t ht
      rw [List.mem_range] at ht
      rw [if_neg (by omega)]
    rw [h1, List.nil_append, List.filterMap_map]
    have h2 : ∀ i ∈ List.range (prices_usd.length - w),
        ((fun t =>
          if w ≤ t then
            some ((((List.zipWith (fun p f => p / f) prices_usd eurusd).getD t 0 /
                (List.zipWith (fun p f => p / f) prices_usd eurusd).getD (t - w) 0 - 1) -
              (prices_usd.getD t 0 / prices_usd.getD (t - w) 0 - 1)) * 100)
          else none) ∘ (fun x => w + x)) i =
        (some ∘ fun i =>
          (((List.zipWith (fun p f => p / f) prices_usd eurusd).getD (w + i) 0 /
              (List.zipWith (fun p f => p / f) prices_usd eurusd).getD i 0 - 1) -
            (prices_usd.getD (w + i) 0 / prices_usd.getD i 0 - 1)) * 100) i := by
      intro i _
      simp only [Function.comp_apply, if_pos (Nat.le_add_right w i),
        Nat.add_sub_cancel_left]
    rw [List.filterMap_congr h2, List.filterMap_eq_map, Nat.add_sub_cancel_left]
  · have hzero : prices_usd.length - w = 0 := by omega
    rw [hzero, List.range_zero, List.map_nil, List.filterMap_eq_nil]
    intro t ht
    rw [List.mem_range] at ht
    rw [if_neg (by omega)]

/-- C8: for aligned series of equal length, the rolling FX impact drops the
first `w` dates (output length is `n - w`, never null-filled) and the value
at source position `t ≥ w` equals
`(ret_eur_roll[t] - ret_asset_roll[t]) * 100` with
`ret_asset_roll[t] = p_usd[t]/p_usd[t-w] - 1` and
`ret_eur_roll[t] = p_eur[t]/p_eur[t-w] - 1`, `p_eur = p_usd / eurusd`. -/
theorem calculate_rolling_fx_impact_spec (prices_usd eurusd : List ℚ) (w : Nat)
    (hlen : eurusd.length = prices_usd.length) :
    (calculate_rolling_fx_impact prices_usd eurusd w).length =
      prices_usd.length - w ∧
    ∀ t, w ≤ t → t < prices_usd.length →
      (calculate_rolling_fx_impact prices_usd eurusd w).getD (t - w) 0 =
        ((prices_usd.getD t 0 / eurusd.getD t 0) /
            (prices_usd.getD (t - w) 0 / eurusd.getD (t - w) 0) - 1) * 100 -
          (prices_usd.getD t 0 / prices_usd.getD (t - w) 0 - 1) * 100 := by
  rw [rolling_fx_impact_eq_map prices_usd eurusd w hlen]
  constructor
  · simp
  · intro t htw htn
    rw [List.getD_eq_getElem?_getD, List.getElem?_map,
      List.getElem?_range (show t - w < prices_usd.length - w by omega)]
    simp only [Option.map_some', Option.getD_some]
    rw [show w + (t - w) = t by omega]
    rw [getD_zipWith_div prices_usd eurusd t htn (by omega),
      getD_zipWith_div prices_usd eurusd (t - w) (by omega) (by omega)]
    ring

/-- Closed witness for C8: `w = 1`, prices `[100, 110, 121]`, EUR/USD
`[1, 11/10, 11/10]`: two rolling values survive, the first two dates are
dropped, and the value at `t = 1` matches the formula. -/
theorem calculate_rolling_fx_impact_spec_witness :
    (calculate_rolling_fx_impact [100, 110, 121] [1, 11/10, 11/10] 1).length = 2 ∧
    (calculate_rolling_fx_impact [100, 110, 121] [1, 11/10, 11/10] 1).getD 0 0 =
      ((110/ (11/10 : ℚ)) / (100 / 1) - 1) * 100 - (110 / 100 - 1) * 100 := by
  have h := calculate_rolling_fx_impact_spec [100, 110, 121] [1, 11/10, 11/10] 1
    (by norm_num)
  refine ⟨h.1, ?_⟩
  have h2 := h.2 1 (by norm_num) (by norm_num)
  simpa using h2

end FxImpact
